import Mathlib

/-!
Formal model of the Snowflake distributed unique ID generator
(package Snowflake, file snowflake.go).

Modelling conventions:
* a Go `time.Time` is modelled by its absolute timestamp in nanoseconds
  as an unbounded integer (the zero `time.Time` is January 1, year 1 UTC);
* Go `int64` arithmetic is modelled on `Int` (the quantities involved stay
  far below 2^63 on the defined domain of the Go time API), with the single
  `uint64(...)` conversion in `toID` made explicit as `emod 2^64`;
* Go `uint16`/`uint64` conversions and arithmetic carry explicit `% 2^16`
  and `% 2^64` reductions;
* the `time.Now()` readings taken by `NextID` and `sleepTime` are supplied
  as explicit arguments, and the interface-address enumerator and the
  caller-supplied MachineID function are supplied as their results;
  errors coming from those external collaborators are opaque to the
  generator and are modelled by an error code;
* the mutex only serializes calls, so a run of the generator is modelled
  as a sequential fold over the list of clock readings.
-/

namespace SnowflakeSpec

/-! Bit lengths of the Snowflake ID parts (snowflake.go lines 20-24). -/

def BitLenTime : Nat := 39

def BitLenSequence : Nat := 8

def BitLenMachineID : Nat := 63 - BitLenTime - BitLenSequence

/-- Tick unit in nanoseconds: 1e7 nsec, i.e. 10 msec (snowflake.go line 135). -/
def SnowflakeTimeUnit : Int := 10000000

/-- Error values of the package.  The four named constructors model the four
`errors.New` values; `custom code` models an opaque error produced by an
external collaborator (the caller-supplied MachineID function or the
interface-address enumerator) and propagated verbatim. -/
inductive GoError where
  | startTimeAhead
  | noPrivateAddress
  | overTimeLimit
  | invalidMachineID
  | custom (code : Nat)
  deriving DecidableEq, Repr

/-- Generator state (struct Snowflake, snowflake.go lines 47-53).
The mutex field is dropped: it only serializes calls, which the model
captures by treating a run as a sequence of calls. -/
structure Snowflake where
  startTime : Int
  elapsedTime : Int
  sequence : Nat
  machineID : Nat
  deriving DecidableEq, Repr

/-- Configuration (struct Settings, snowflake.go lines 40-44).
startTime is the UnixNano value of Settings.StartTime, with none modelling
the zero time.Time.  machineID is the result of calling the supplied
MachineID function, a (value, optional opaque error code) pair, with none
modelling a nil function field.  checkMachineID models CheckMachineID. -/
structure Settings where
  startTime : Option Int
  machineID : Option (Nat × Option Nat)
  checkMachineID : Option (Nat → Bool)

/-- Nanosecond timestamp of the zero time.Time (January 1, year 1 UTC):
-62135596800 seconds before the Unix epoch. -/
def zeroTimeNano : Int := -62135596800 * 1000000000

/-- The timestamp Settings.StartTime stands for. -/
def settingsStartNano (st : Settings) : Int :=
  match st.startTime with
  | none => zeroTimeNano
  | some t => t

/-- Nanosecond timestamp of 2014-09-01 00:00:00 +0000 UTC, the default
epoch used when Settings.StartTime is zero (snowflake.go line 79). -/
def epoch2014Nano : Int := 1409529600 * 1000000000

/-- toSnowflakeTime (snowflake.go lines 137-139): UnixNano divided by the
time unit.  Go integer division truncates toward zero, hence Int.tdiv. -/
def toSnowflakeTime (nanos : Int) : Int :=
  Int.tdiv nanos SnowflakeTimeUnit

/-- currentElapsedTime (snowflake.go lines 141-143), with the time.Now()
reading passed in as the argument now. -/
def currentElapsedTime (now startTime : Int) : Int :=
  toSnowflakeTime now - startTime

/-- sleepTime (snowflake.go lines 145-148), with the time.Now() reading
passed in as the argument now.  Go % on int64 truncates toward zero,
hence Int.tmod.  The result is the requested sleep duration in
nanoseconds. -/
def sleepTime (overtime now : Int) : Int :=
  overtime * SnowflakeTimeUnit - Int.tmod now SnowflakeTimeUnit

/-! Model of the net package values used by the default machine-ID
derivation.  A net.IP is a byte slice, modelled as a list of byte
values; a member of the slice returned by the address enumerator is
either a *net.IPNet (carrying its IP) or some other implementation. -/

inductive NetAddr where
  | ipnet (ip : List Nat)
  | other
  deriving DecidableEq, Repr

/-- The 16-byte IPv6 loopback address ::1. -/
def ipv6Loopback : List Nat := [0, 0, 0, 0, 0, 0, 0, 0, 0, 0, 0, 0, 0, 0, 0, 1]

/-- net.IP.To4: the 4-byte form of an IPv4 address, or none for anything
else (nil in Go).  A 16-byte IPv4-mapped address (ten zero bytes then
0xff, 0xff) yields its last four bytes. -/
def ipTo4 (ip : List Nat) : Option (List Nat) :=
  if ip.length = 4 then some ip
  else if ip.length = 16 && ip.take 10 == List.replicate 10 0 &&
          ip.getD 10 0 == 255 && ip.getD 11 0 == 255 then some (ip.drop 12)
  else none

/-- net.IP.IsLoopback: first byte 127 for an IPv4 address, or equality
with ::1 otherwise. -/
def isLoopback (ip : List Nat) : Bool :=
  match ipTo4 ip with
  | some ip4 => ip4.getD 0 0 == 127
  | none => ip == ipv6Loopback

/-- isPrivateIPv4 (snowflake.go lines 180-184): RFC1918 private ranges and
the RFC3927 link-local range; none models the nil net.IP. -/
def isPrivateIPv4 (ip : Option (List Nat)) : Bool :=
  match ip with
  | none => false
  | some ip4 =>
    ip4.getD 0 0 == 10 ||
    (ip4.getD 0 0 == 172 && (decide (16 ≤ ip4.getD 1 0) && decide (ip4.getD 1 0 < 32))) ||
    (ip4.getD 0 0 == 192 && ip4.getD 1 0 == 168) ||
    (ip4.getD 0 0 == 169 && ip4.getD 1 0 == 254)

/-- Loop body of privateIPv4 (snowflake.go lines 166-176): skip values
that are not a *net.IPNet and loopback addresses, return the To4 form of
the first address whose To4 form passes isPrivateIPv4. -/
def privateIPv4Loop : List NetAddr → Except GoError (List Nat)
  | [] => Except.error GoError.noPrivateAddress
  | a :: rest =>
    match a with
    | NetAddr.other => privateIPv4Loop rest
    | NetAddr.ipnet ip =>
      if isLoopback ip then privateIPv4Loop rest
      else if isPrivateIPv4 (ipTo4 ip) then Except.ok ((ipTo4 ip).getD [])
      else privateIPv4Loop rest

/-- privateIPv4 (snowflake.go lines 160-178), with the enumerator result
passed in: an enumerator error (opaque code) is returned verbatim. -/
def privateIPv4 (interfaceAddrs : Except Nat (List NetAddr)) : Except GoError (List Nat) :=
  match interfaceAddrs with
  | Except.error e => Except.error (GoError.custom e)
  | Except.ok as => privateIPv4Loop as

/-- lower16BitPrivateIP (snowflake.go lines 186-193):
uint16(ip[2])<<8 + uint16(ip[3]), with the uint16 conversions and
arithmetic made explicit as reductions mod 2^16. -/
def lower16BitPrivateIP (interfaceAddrs : Except Nat (List NetAddr)) : Except GoError Nat :=
  match privateIPv4 interfaceAddrs with
  | Except.error e => Except.error e
  | Except.ok ip =>
    Except.ok (((ip.getD 2 0 % 65536) <<< 8 % 65536 + ip.getD 3 0 % 65536) % 65536)

/-- The sf.startTime value New computes (snowflake.go lines 78-82). -/
def resolvedStartTime (st : Settings) : Int :=
  match st.startTime with
  | none => toSnowflakeTime epoch2014Nano
  | some t => toSnowflakeTime t

/-- The machine-ID resolution of New (snowflake.go lines 84-89): the
default private-IP derivation when no MachineID function is supplied,
otherwise the supplied function's result, its error (opaque to the
package) passed through. -/
def resolveMachineID (st : Settings) (interfaceAddrs : Except Nat (List NetAddr)) :
    Except GoError Nat :=
  match st.machineID with
  | none => lower16BitPrivateIP interfaceAddrs
  | some (v, none) => Except.ok v
  | some (_, some e) => Except.error (GoError.custom e)

/-- New (snowflake.go lines 69-99), with the time.Now() reading and the
result of the default interface-address enumerator passed in. -/
def New (st : Settings) (now : Int) (interfaceAddrs : Except Nat (List NetAddr)) :
    Except GoError Snowflake :=
  if settingsStartNano st > now then Except.error GoError.startTimeAhead
  else
    match resolveMachineID st interfaceAddrs with
    | Except.error e => Except.error e
    | Except.ok mid =>
      match st.checkMachineID with
      | some check =>
        if check mid then
          Except.ok ⟨resolvedStartTime st, 0, (1 <<< BitLenSequence) - 1, mid⟩
        else Except.error GoError.invalidMachineID
      | none => Except.ok ⟨resolvedStartTime st, 0, (1 <<< BitLenSequence) - 1, mid⟩

/-- NewSnowflake (snowflake.go lines 106-109): call New and discard the
error; the nil pointer result on failure is modelled by none. -/
def NewSnowflake (st : Settings) (now : Int) (interfaceAddrs : Except Nat (List NetAddr)) :
    Option Snowflake :=
  match New st now interfaceAddrs with
  | Except.ok sf => some sf
  | Except.error _ => none

/-- The maskSequence constant of NextID (snowflake.go line 114). -/
def maskSequence : Nat := (1 <<< BitLenSequence) - 1

/-- toID (snowflake.go lines 150-158).  Returns the pair of Go return
values: on overflow of the time field the value 0 together with the
error, otherwise the encoded ID and no error.  uint64(sf.elapsedTime)
is the two's-complement reinterpretation, i.e. emod 2^64, and the
uint64 shift and ors are reduced mod 2^64. -/
def toID (sf : Snowflake) : Nat × Option GoError :=
  if sf.elapsedTime ≥ ((1 <<< BitLenTime : Nat) : Int) then
    (0, some GoError.overTimeLimit)
  else
    ((((Int.emod sf.elapsedTime (2 ^ 64)).toNat <<< (BitLenSequence + BitLenMachineID)) % 2 ^ 64 |||
      sf.sequence <<< BitLenMachineID ||| sf.machineID) % 2 ^ 64,
     none)

/-- NextID (snowflake.go lines 113-133), with the time.Now() reading of
currentElapsedTime passed in as now.  Returns the post-call state
together with the two Go return values.  The time.Sleep call has no
effect on the state; the duration it is given is modelled separately by
wrapOvertime and sleepTime. -/
def nextID (sf : Snowflake) (now : Int) : Snowflake × Nat × Option GoError :=
  let current := currentElapsedTime now sf.startTime
  let sf' :=
    if sf.elapsedTime < current then
      { sf with elapsedTime := current, sequence := 0 }
    else
      let seq := (sf.sequence + 1) &&& maskSequence
      if seq = 0 then { sf with sequence := seq, elapsedTime := sf.elapsedTime + 1 }
      else { sf with sequence := seq }
  (sf', toID sf')

/-- The overtime value computed on the sequence-wraparound branch of
NextID (snowflake.go lines 123-128), none when that branch is not
taken. -/
def wrapOvertime (sf : Snowflake) (now : Int) : Option Int :=
  let current := currentElapsedTime now sf.startTime
  if sf.elapsedTime < current then none
  else if (sf.sequence + 1) &&& maskSequence = 0 then
    some (sf.elapsedTime + 1 - current)
  else none

/-- State transition of one NextID call. -/
def step (sf : Snowflake) (now : Int) : Snowflake :=
  (nextID sf now).1

/-- State after a sequence of NextID calls with the given clock readings. -/
def runState (sf : Snowflake) (nows : List Int) : Snowflake :=
  nows.foldl step sf

/-- The two Go return values of the i-th NextID call (0-based) in a run
with the given clock readings. -/
def callResult (sf : Snowflake) (nows : List Int) (i : Nat) : Nat × Option GoError :=
  (nextID (runState sf (nows.take i)) (nows.getD i 0)).2

/-- elapsedTime on an ID (snowflake.go lines 200-202). -/
def elapsedTime (id : Nat) : Nat :=
  id >>> (BitLenSequence + BitLenMachineID)

/-- SequenceNumber (snowflake.go lines 204-208); the Go operators bind as
(id & maskSequence) >> BitLenMachineID. -/
def SequenceNumber (id : Nat) : Nat :=
  (id &&& (((1 <<< BitLenSequence) - 1) <<< BitLenMachineID)) >>> BitLenMachineID

/-- MachineID on an ID (snowflake.go lines 210-214). -/
def MachineID (id : Nat) : Nat :=
  id &&& ((1 <<< BitLenMachineID) - 1)

/-- The Go map returned by Decompose, as a record with one field per key. -/
structure DecomposedID where
  id : Nat
  msb : Nat
  time : Nat
  sequence : Nat
  machineID : Nat
  deriving DecidableEq, Repr

/-- Decompose (snowflake.go lines 216-229). -/
def Decompose (id : Nat) : DecomposedID :=
  { id := id
    msb := id >>> 63
    time := elapsedTime id
    sequence := SequenceNumber id
    machineID := MachineID id }

/-- Encoding step of spec section 4.2 (the formula of the success branch
of toID), in uint64 arithmetic. -/
def encodeID (time seq machineID : Nat) : Nat :=
  ((time <<< (BitLenSequence + BitLenMachineID)) % 2 ^ 64 |||
   (seq <<< BitLenMachineID) % 2 ^ 64 ||| machineID % 2 ^ 64) % 2 ^ 64

/-- State well-formedness: the ranges the Go types and the constructor
guarantee for every reachable state. -/
def WF (sf : Snowflake) : Prop :=
  0 ≤ sf.elapsedTime ∧ sf.sequence < 256 ∧ sf.machineID < 65536

/-- Well-formedness of a Settings value: the value returned by the
caller-supplied MachineID function is a uint16. -/
def SettingsWF (st : Settings) : Prop :=
  ∀ v e, st.machineID = some (v, e) → v < 65536

/-- Well-formedness of an enumerator result: every IP entry is a byte
slice. -/
def AddrsWF (interfaceAddrs : Except Nat (List NetAddr)) : Prop :=
  ∀ as, interfaceAddrs = Except.ok as →
    ∀ ip, NetAddr.ipnet ip ∈ as → ∀ b ∈ ip, b < 256

/-! Helper lemmas. -/

theorem shiftLeft_or_add {b : Nat} (a k : Nat) (hb : b < 2 ^ k) :
    a <<< k ||| b = a * 2 ^ k + b := by
  rw [Nat.shiftLeft_eq, Nat.mul_comm a (2 ^ k)]
  exact (Nat.mul_add_lt_is_or hb a).symm

theorem and_maskSequence (s : Nat) : s &&& maskSequence = s % 256 := by
  have h : maskSequence = 2 ^ 8 - 1 := by decide
  rw [h, Nat.and_pow_two_sub_one_eq_mod]

/-- The three branches a NextID call can take, with the state each one
produces. -/
theorem step_cases (sf : Snowflake) (now : Int) :
    (sf.elapsedTime < currentElapsedTime now sf.startTime ∧
      step sf now = { sf with elapsedTime := currentElapsedTime now sf.startTime, sequence := 0 }) ∨
    (currentElapsedTime now sf.startTime ≤ sf.elapsedTime ∧ (sf.sequence + 1) % 256 = 0 ∧
      step sf now = { sf with elapsedTime := sf.elapsedTime + 1, sequence := 0 }) ∨
    (currentElapsedTime now sf.startTime ≤ sf.elapsedTime ∧ (sf.sequence + 1) % 256 ≠ 0 ∧
      step sf now = { sf with sequence := (sf.sequence + 1) % 256 }) := by
  unfold step nextID
  simp only [and_maskSequence]
  by_cases h1 : sf.elapsedTime < currentElapsedTime now sf.startTime
  · exact Or.inl ⟨h1, by simp [h1]⟩
  · by_cases h2 : (sf.sequence + 1) % 256 = 0
    · exact Or.inr (Or.inl ⟨le_of_not_lt h1, h2, by simp [h1, h2]⟩)
    · exact Or.inr (Or.inr ⟨le_of_not_lt h1, h2, by simp [h1, h2]⟩)

theorem WF_step (sf : Snowflake) (now : Int) (h : WF sf) : WF (step sf now) := by
  obtain ⟨h0, hs, hm⟩ := h
  rcases step_cases sf now with ⟨hlt, he⟩ | ⟨hle, hz, he⟩ | ⟨hle, hz, he⟩ <;>
    rw [WF, he] <;> dsimp <;> omega

theorem step_elapsed_mono (sf : Snowflake) (now : Int) :
    sf.elapsedTime ≤ (step sf now).elapsedTime := by
  rcases step_cases sf now with ⟨hlt, he⟩ | ⟨hle, hz, he⟩ | ⟨hle, hz, he⟩ <;>
    rw [he] <;> dsimp <;> omega

theorem step_machineID (sf : Snowflake) (now : Int) :
    (step sf now).machineID = sf.machineID := by
  rcases step_cases sf now with ⟨hlt, he⟩ | ⟨hle, hz, he⟩ | ⟨hle, hz, he⟩ <;> rw [he]

/-- Lexicographic rank of the (tick, sequence) pair of a state. -/
def key (sf : Snowflake) : Int :=
  sf.elapsedTime * 256 + (sf.sequence : Int)

theorem key_step (sf : Snowflake) (now : Int) (h : WF sf) : key sf < key (step sf now) := by
  obtain ⟨h0, hs, hm⟩ := h
  rcases step_cases sf now with ⟨hlt, he⟩ | ⟨hle, hz, he⟩ | ⟨hle, hz, he⟩ <;>
    rw [key, key, he] <;> dsimp <;> omega

theorem runState_append (sf : Snowflake) (l1 l2 : List Int) :
    runState sf (l1 ++ l2) = runState (runState sf l1) l2 :=
  List.foldl_append ..

theorem WF_runState (sf : Snowflake) (nows : List Int) (h : WF sf) : WF (runState sf nows) := by
  induction nows generalizing sf with
  | nil => exact h
  | cons a l ih => exact ih (step sf a) (WF_step sf a h)

theorem elapsed_runState_mono (sf : Snowflake) (nows : List Int) :
    sf.elapsedTime ≤ (runState sf nows).elapsedTime := by
  induction nows generalizing sf with
  | nil => exact le_refl _
  | cons a l ih => exact le_trans (step_elapsed_mono sf a) (ih (step sf a))

theorem machineID_runState (sf : Snowflake) (nows : List Int) :
    (runState sf nows).machineID = sf.machineID := by
  induction nows generalizing sf with
  | nil => rfl
  | cons a l ih => rw [runState, List.foldl_cons, ← runState, ih, step_machineID]

theorem key_runState (sf : Snowflake) (nows : List Int) (h : WF sf) (hne : nows ≠ []) :
    key sf < key (runState sf nows) := by
  induction nows generalizing sf with
  | nil => exact absurd rfl hne
  | cons a l ih =>
    rcases List.eq_nil_or_concat l with hl | _
    · subst hl
      exact key_step sf a h
    · calc key sf < key (step sf a) := key_step sf a h
        _ < key (runState (step sf a) l) := by
            refine ih (step sf a) (WF_step sf a h) ?_
            rintro rfl
            simp at *

theorem runState_take_succ (sf : Snowflake) (nows : List Int) (i : Nat) (hi : i < nows.length) :
    runState sf (nows.take (i + 1)) = step (runState sf (nows.take i)) (nows.getD i 0) := by
  rw [List.take_succ, runState_append, List.getElem?_eq_getElem hi]
  rw [List.getD_eq_getElem?_getD, List.getElem?_eq_getElem hi]
  rfl

theorem toID_overflow (sf : Snowflake) (h : (2 : Int) ^ 39 ≤ sf.elapsedTime) :
    toID sf = (0, some GoError.overTimeLimit) := by
  have hc : ((1 <<< BitLenTime : Nat) : Int) = 2 ^ 39 := by decide
  unfold toID
  rw [if_pos (by rw [hc]; exact h)]

theorem toID_ok (sf : Snowflake) (h0 : 0 ≤ sf.elapsedTime) (h1 : sf.elapsedTime < 2 ^ 39)
    (hs : sf.sequence < 256) (hm : sf.machineID < 65536) :
    toID sf = (sf.elapsedTime.toNat * 2 ^ 24 + sf.sequence * 2 ^ 16 + sf.machineID, none) := by
  have hc : ((1 <<< BitLenTime : Nat) : Int) = 2 ^ 39 := by decide
  have hbits : BitLenSequence + BitLenMachineID = 24 := by decide
  have hbitm : BitLenMachineID = 16 := by decide
  unfold toID
  rw [if_neg (by rw [hc]; omega), hbits, hbitm]
  have hemod : Int.emod sf.elapsedTime (2 ^ 64) = sf.elapsedTime :=
    Int.emod_eq_of_lt h0 (by omega)
  rw [hemod]
  have he39 : sf.elapsedTime.toNat < 2 ^ 39 := by omega
  have hA : sf.elapsedTime.toNat <<< 24 % 2 ^ 64 = sf.elapsedTime.toNat <<< 24 :=
    Nat.mod_eq_of_lt (by rw [Nat.shiftLeft_eq]; omega)
  rw [hA, Nat.lor_assoc,
    shiftLeft_or_add sf.sequence 16 hm,
    shiftLeft_or_add sf.elapsedTime.toNat 24 (by omega),
    Nat.mod_eq_of_lt (by omega), Nat.add_assoc]

/-- elapsedTime is division by 2^24. -/
theorem elapsedTime_eq (id : Nat) : elapsedTime id = id / 2 ^ 24 := by
  have hbits : BitLenSequence + BitLenMachineID = 24 := by decide
  rw [elapsedTime, hbits, Nat.shiftRight_eq_div_pow]

/-- SequenceNumber extracts bits 16..23. -/
theorem SequenceNumber_eq (id : Nat) : SequenceNumber id = id / 2 ^ 16 % 2 ^ 8 := by
  apply Nat.eq_of_testBit_eq
  intro i
  have h16 : id / 2 ^ 16 = id >>> 16 := (Nat.shiftRight_eq_div_pow id 16).symm
  rw [h16]
  simp only [SequenceNumber, Nat.testBit_shiftRight, Nat.testBit_land, Nat.testBit_shiftLeft,
    Nat.testBit_mod_two_pow]
  have hmask : (1 <<< BitLenSequence) - 1 = 2 ^ 8 - 1 := by decide
  have hblm : BitLenMachineID = 16 := by decide
  rw [hmask, hblm, Nat.testBit_two_pow_sub_one]
  by_cases hi : i < 8 <;> simp [hi]

/-- MachineID extracts the low 16 bits. -/
theorem MachineID_eq (id : Nat) : MachineID id = id % 2 ^ 16 := by
  have hmask : (1 <<< BitLenMachineID) - 1 = 2 ^ 16 - 1 := by decide
  rw [MachineID, hmask, Nat.and_pow_two_sub_one_eq_mod]

/-- Field extraction from a well-formed encoded ID. -/
theorem decode_fields (t s m : Nat) (hs : s < 256) (hm : m < 65536) :
    elapsedTime (t * 2 ^ 24 + s * 2 ^ 16 + m) = t ∧
    SequenceNumber (t * 2 ^ 24 + s * 2 ^ 16 + m) = s ∧
    MachineID (t * 2 ^ 24 + s * 2 ^ 16 + m) = m := by
  refine ⟨?_, ?_, ?_⟩
  · rw [elapsedTime_eq]; omega
  · rw [SequenceNumber_eq]; omega
  · rw [MachineID_eq]; omega

/-- An ID accepted by lower16BitPrivateIP is a uint16. -/
theorem lower16_lt (interfaceAddrs : Except Nat (List NetAddr)) (mid : Nat)
    (h : lower16BitPrivateIP interfaceAddrs = Except.ok mid) : mid < 65536 := by
  unfold lower16BitPrivateIP at h
  rcases hp : privateIPv4 interfaceAddrs with e | ip <;> rw [hp] at h
  · exact absurd h (by simp)
  · simp only [Except.ok.injEq] at h
    omega

/-- A resolved machine identifier is a uint16. -/
theorem resolveMachineID_lt (st : Settings) (interfaceAddrs : Except Nat (List NetAddr))
    (mid : Nat) (h : resolveMachineID st interfaceAddrs = Except.ok mid)
    (hst : SettingsWF st) : mid < 65536 := by
  unfold resolveMachineID at h
  rcases hmid : st.machineID with _ | ⟨v, oe⟩ <;> rw [hmid] at h
  · exact lower16_lt _ _ h
  · rcases oe with _ | e
    · cases h
      exact hst _ none hmid
    · exact absurd h (by simp)

/-- The state New hands out on success. -/
theorem New_ok_state (st : Settings) (now : Int) (interfaceAddrs : Except Nat (List NetAddr))
    (sf : Snowflake) (h : New st now interfaceAddrs = Except.ok sf) (hst : SettingsWF st) :
    sf.elapsedTime = 0 ∧ sf.sequence = 255 ∧ sf.machineID < 65536 := by
  unfold New at h
  split at h
  · exact absurd h (by simp)
  · rcases hr : resolveMachineID st interfaceAddrs with e | mid
    · simp only [hr] at h
      exact absurd h (by simp)
    · simp only [hr] at h
      have hmid : mid < 65536 := resolveMachineID_lt st interfaceAddrs mid hr hst
      rcases hc : st.checkMachineID with _ | check <;> simp only [hc] at h
      · cases h
        exact ⟨rfl, rfl, hmid⟩
      · split at h
        · cases h
          exact ⟨rfl, rfl, hmid⟩
        · exact absurd h (by simp)

theorem WF_New (st : Settings) (now : Int) (interfaceAddrs : Except Nat (List NetAddr))
    (sf : Snowflake) (h : New st now interfaceAddrs = Except.ok sf) (hst : SettingsWF st) :
    WF sf := by
  obtain ⟨h1, h2, h3⟩ := New_ok_state st now interfaceAddrs sf h hst
  exact ⟨by omega, by omega, h3⟩

theorem toID_err_iff (sf : Snowflake) :
    ((toID sf).2 = some GoError.overTimeLimit ↔ (2 : Int) ^ 39 ≤ sf.elapsedTime) ∧
    (∀ e, (toID sf).2 = some e → e = GoError.overTimeLimit) := by
  have hc : ((1 <<< BitLenTime : Nat) : Int) = 2 ^ 39 := by decide
  unfold toID
  split <;> rename_i h <;> rw [hc] at h
  · exact ⟨⟨fun _ => h, fun _ => rfl⟩, fun e he => (Option.some.inj he).symm⟩
  · refine ⟨⟨fun hx => absurd hx (by simp), fun hx => absurd hx h⟩, fun e he => absurd he (by simp)⟩

theorem toID_ok_elapsed (sf : Snowflake) (h : (toID sf).2 = none) :
    sf.elapsedTime < 2 ^ 39 := by
  have hc : ((1 <<< BitLenTime : Nat) : Int) = 2 ^ 39 := by decide
  unfold toID at h
  split at h <;> rename_i hb <;> rw [hc] at hb
  · exact absurd h (by simp)
  · omega

theorem toID_err_fst (sf : Snowflake) (e : GoError) (h : (toID sf).2 = some e) :
    (toID sf).1 = 0 := by
  unfold toID at h ⊢
  by_cases hcond : sf.elapsedTime ≥ ((1 <<< BitLenTime : Nat) : Int)
  · rw [if_pos hcond]
  · rw [if_neg hcond] at h
    exact absurd h (by simp)

theorem step_ne (sf : Snowflake) (now : Int) : step sf now ≠ sf := by
  rcases step_cases sf now with ⟨hlt, he⟩ | ⟨hle, hz, he⟩ | ⟨hle, hz, he⟩ <;>
    rw [he] <;> intro hcontra
  · have := congrArg Snowflake.elapsedTime hcontra
    dsimp at this
    omega
  · have := congrArg Snowflake.elapsedTime hcontra
    dsimp at this
    omega
  · have := congrArg Snowflake.sequence hcontra
    dsimp at this
    omega

theorem callResult_eq_toID (sf : Snowflake) (nows : List Int) (k : Nat) (hk : k < nows.length) :
    callResult sf nows k = toID (runState sf (nows.take (k + 1))) := by
  rw [callResult, runState_take_succ sf nows k hk]
  rfl

theorem runState_take_le (sf : Snowflake) (nows : List Int) {i j : Nat} (hij : i ≤ j) :
    runState sf (nows.take j) = runState (runState sf (nows.take i)) ((nows.take j).drop i) := by
  conv_lhs => rw [← List.take_append_drop i (nows.take j)]
  rw [runState_append, List.take_take, min_eq_left hij]

/-- C5: NextID fails with ErrOverTimeLimit exactly when the internal tick
at encoding time is at least 2^39 (and ErrOverTimeLimit is the only error
NextID produces), and the condition is permanent: in any run, once a call
fails, every later call fails with the same error. -/
theorem nextID_overTimeLimit_iff_permanent :
    (∀ (sf : Snowflake) (now : Int),
      ((nextID sf now).2.2 = some GoError.overTimeLimit ↔
        (2 : Int) ^ 39 ≤ (nextID sf now).1.elapsedTime) ∧
      (∀ e, (nextID sf now).2.2 = some e → e = GoError.overTimeLimit)) ∧
    (∀ (sf : Snowflake) (nows : List Int) (i j : Nat), i ≤ j → j < nows.length →
      (callResult sf nows i).2 = some GoError.overTimeLimit →
      (callResult sf nows j).2 = some GoError.overTimeLimit) := by
  constructor
  · intro sf now
    exact toID_err_iff (step sf now)
  · intro sf nows i j hij hj herr
    have hi : i < nows.length := lt_of_le_of_lt hij hj
    rw [callResult_eq_toID sf nows i hi] at herr
    rw [callResult_eq_toID sf nows j hj]
    have h39 : (2 : Int) ^ 39 ≤ (runState sf (nows.take (i + 1))).elapsedTime :=
      (toID_err_iff _).1.mp herr
    have hmono : (runState sf (nows.take (i + 1))).elapsedTime ≤
        (runState sf (nows.take (j + 1))).elapsedTime := by
      rw [runState_take_le sf nows (Nat.succ_le_succ hij)]
      exact elapsed_runState_mono _ _
    exact (toID_err_iff _).1.mpr (le_trans h39 hmono)

/-- C5 witness: a concrete state whose first and second calls both fail. -/
theorem nextID_overTimeLimit_iff_permanent_witness :
    (callResult ⟨0, 549755813888, 0, 0⟩ [0, 0] 1).2 = some GoError.overTimeLimit :=
  nextID_overTimeLimit_iff_permanent.2 ⟨0, 549755813888, 0, 0⟩ [0, 0] 0 1
    (by decide) (by decide) rfl

/-- C10: a NextID call that fails with ErrOverTimeLimit returns the
uint64 value 0, yet still mutates the generator state, and the returned
pair is computed from the already-updated state (the overflow check runs
after the tick/sequence update). -/
theorem nextID_overTimeLimit_returns_zero_mutates (sf : Snowflake) (now : Int)
    (h : (nextID sf now).2.2 = some GoError.overTimeLimit) :
    (nextID sf now).2.1 = 0 ∧ (nextID sf now).1 ≠ sf ∧
    (nextID sf now).2 = toID ((nextID sf now).1) := by
  exact ⟨toID_err_fst (step sf now) GoError.overTimeLimit h, step_ne sf now, rfl⟩

/-- C10 witness: the failing call on a concrete overflowed state. -/
theorem nextID_overTimeLimit_returns_zero_mutates_witness :
    (nextID ⟨0, 549755813888, 0, 0⟩ 0).2.1 = 0 ∧
    (nextID ⟨0, 549755813888, 0, 0⟩ 0).1 ≠ ⟨0, 549755813888, 0, 0⟩ ∧
    (nextID ⟨0, 549755813888, 0, 0⟩ 0).2 = toID ((nextID ⟨0, 549755813888, 0, 0⟩ 0).1) :=
  nextID_overTimeLimit_returns_zero_mutates ⟨0, 549755813888, 0, 0⟩ 0 rfl

/-- C4 counterexample: the overtime value 1 is reachable in the
sequence-wraparound branch (already on the very first call of a freshly
constructed generator), yet for a clock reading on a tick boundary the
computed sleep duration equals one full tick unit, not strictly less. -/
theorem sleepTime_strict_bound_counterexample :
    New ⟨none, some (5, none), none⟩ 0 (Except.ok []) =
      Except.ok ⟨140952960000, 0, 255, 5⟩ ∧
    wrapOvertime ⟨140952960000, 0, 255, 5⟩ 1409529600000000000 = some 1 ∧
    ¬ sleepTime 1 0 < SnowflakeTimeUnit :=
  ⟨rfl, rfl, by decide⟩

/-- C4 amended: an overtime value produced by the wraparound branch is at
least 1, and for any nonnegative clock reading the computed sleep
duration is at most overtime tick units (it reaches exactly that bound on
a tick boundary, and overtime exceeds 1 when the clock has stalled or
gone backwards). -/
theorem sleepTime_le_overtime_units (sf : Snowflake) (now ov : Int)
    (hov : wrapOvertime sf now = some ov) :
    1 ≤ ov ∧ ∀ now2 : Int, 0 ≤ now2 → sleepTime ov now2 ≤ ov * SnowflakeTimeUnit := by
  have h1 : 1 ≤ ov := by
    unfold wrapOvertime at hov
    dsimp only at hov
    by_cases hlt : sf.elapsedTime < currentElapsedTime now sf.startTime
    · rw [if_pos hlt] at hov
      exact absurd hov (by simp)
    · rw [if_neg hlt] at hov
      by_cases hm : (sf.sequence + 1) &&& maskSequence = 0
      · rw [if_pos hm] at hov
        have := Option.some.inj hov
        omega
      · rw [if_neg hm] at hov
        exact absurd hov (by simp)
  refine ⟨h1, fun now2 h2 => ?_⟩
  have ht : 0 ≤ Int.tmod now2 SnowflakeTimeUnit := Int.tmod_nonneg _ h2
  simp only [sleepTime]
  omega

/-- C4 witness: the amended bound at the concrete wraparound of the first
call of a freshly constructed generator. -/
theorem sleepTime_le_overtime_units_witness :
    1 ≤ (1 : Int) ∧ ∀ now2 : Int, 0 ≤ now2 → sleepTime 1 now2 ≤ 1 * SnowflakeTimeUnit :=
  sleepTime_le_overtime_units ⟨140952960000, 0, 255, 5⟩ 1409529600000000000 1 rfl

/-- C9: NewSnowflake returns exactly the generator New returns when New
succeeds, and nil (with the error discarded) when New fails. -/
theorem NewSnowflake_eq_New (st : Settings) (now : Int)
    (interfaceAddrs : Except Nat (List NetAddr)) :
    (∀ sf, New st now interfaceAddrs = Except.ok sf →
      NewSnowflake st now interfaceAddrs = some sf) ∧
    (∀ e, New st now interfaceAddrs = Except.error e →
      NewSnowflake st now interfaceAddrs = none) := by
  constructor <;> intro x h <;> unfold NewSnowflake <;> rw [h]

/-- C9 witness: a concrete successful and a concrete failing construction. -/
theorem NewSnowflake_eq_New_witness :
    NewSnowflake ⟨none, some (5, none), none⟩ 0 (Except.ok []) =
      some ⟨140952960000, 0, 255, 5⟩ ∧
    NewSnowflake ⟨some 1, some (5, none), none⟩ 0 (Except.ok []) = none :=
  ⟨(NewSnowflake_eq_New ⟨none, some (5, none), none⟩ 0 (Except.ok [])).1
      ⟨140952960000, 0, 255, 5⟩ rfl,
   (NewSnowflake_eq_New ⟨some 1, some (5, none), none⟩ 0 (Except.ok [])).2
      GoError.startTimeAhead rfl⟩

/-- C3 counterexample: at v = 2^63 the re-encoded decomposition is 2^63
itself (elapsedTime keeps bit 63 inside the time field), which differs
from v AND (2^63 - 1) = 0. -/
theorem decompose_roundtrip_counterexample :
    ¬ encodeID (Decompose (2 ^ 63)).time (Decompose (2 ^ 63)).sequence
        (Decompose (2 ^ 63)).machineID = 2 ^ 63 &&& (2 ^ 63 - 1) := by
  decide

/-- C3 amended: for every uint64 value v, re-encoding the decomposed
time, sequence and machine-id fields with the encoding of spec section
4.2 returns v exactly (the guard bit travels inside the 40-bit time
field), and hence equals v AND (2^63 - 1) precisely when bit 63 is 0;
the decomposition helpers are total functions on arbitrary inputs by
construction. -/
theorem decompose_roundtrip (v : Nat) (hv : v < 2 ^ 64) :
    encodeID (Decompose v).time (Decompose v).sequence (Decompose v).machineID = v := by
  show encodeID (elapsedTime v) (SequenceNumber v) (MachineID v) = v
  rw [elapsedTime_eq, SequenceNumber_eq, MachineID_eq]
  unfold encodeID
  have hbits : BitLenSequence + BitLenMachineID = 24 := by decide
  have hblm : BitLenMachineID = 16 := by decide
  rw [hbits, hblm]
  have h1 : (v / 2 ^ 24) <<< 24 % 2 ^ 64 = (v / 2 ^ 24) <<< 24 :=
    Nat.mod_eq_of_lt (by rw [Nat.shiftLeft_eq]; omega)
  have h2 : (v / 2 ^ 16 % 2 ^ 8) <<< 16 % 2 ^ 64 = (v / 2 ^ 16 % 2 ^ 8) <<< 16 :=
    Nat.mod_eq_of_lt (by rw [Nat.shiftLeft_eq]; omega)
  have h3 : v % 2 ^ 16 % 2 ^ 64 = v % 2 ^ 16 := Nat.mod_eq_of_lt (by omega)
  rw [h1, h2, h3, Nat.lor_assoc, shiftLeft_or_add _ 16 (by omega),
    shiftLeft_or_add _ 24 (by omega), Nat.mod_eq_of_lt (by omega)]
  omega

/-- C3 witness: the amended round-trip at a value with the guard bit set. -/
theorem decompose_roundtrip_witness :
    encodeID (Decompose 9223372036854775813).time (Decompose 9223372036854775813).sequence
      (Decompose 9223372036854775813).machineID = 9223372036854775813 :=
  decompose_roundtrip 9223372036854775813 (by decide)

theorem privateIPv4Loop_err (as : List NetAddr) (e : GoError)
    (h : privateIPv4Loop as = Except.error e) : e = GoError.noPrivateAddress := by
  induction as with
  | nil =>
    exact (Except.error.inj h).symm
  | cons a rest ih =>
    cases a with
    | other => exact ih h
    | ipnet ip =>
      unfold privateIPv4Loop at h
      dsimp only at h
      by_cases hl : isLoopback ip
      · rw [if_pos hl] at h
        exact ih h
      · rw [if_neg hl] at h
        by_cases hp : isPrivateIPv4 (ipTo4 ip) = true
        · rw [if_pos hp] at h
          exact absurd h (by simp)
        · rw [if_neg hp] at h
          exact ih h

theorem lower16BitPrivateIP_err (interfaceAddrs : Except Nat (List NetAddr)) (e : GoError)
    (h : lower16BitPrivateIP interfaceAddrs = Except.error e) :
    e = GoError.noPrivateAddress ∨ ∃ c, e = GoError.custom c := by
  unfold lower16BitPrivateIP privateIPv4 at h
  rcases interfaceAddrs with ec | as
  · refine Or.inr ⟨ec, ?_⟩
    simp only [] at h
    exact (Except.error.inj h).symm
  · simp only [] at h
    rcases hp : privateIPv4Loop as with e' | ip <;> rw [hp] at h
    · exact Or.inl ((Except.error.inj h) ▸ privateIPv4Loop_err as e' hp)
    · exact absurd h (by simp)

theorem resolveMachineID_err (st : Settings) (interfaceAddrs : Except Nat (List NetAddr))
    (e : GoError) (h : resolveMachineID st interfaceAddrs = Except.error e) :
    e = GoError.noPrivateAddress ∨ ∃ c, e = GoError.custom c := by
  unfold resolveMachineID at h
  rcases hm : st.machineID with _ | ⟨v, _ | ec⟩ <;> rw [hm] at h <;> dsimp only at h
  · exact lower16BitPrivateIP_err interfaceAddrs e h
  · exact absurd h (by simp)
  · exact Or.inr ⟨ec, (Except.error.inj h).symm⟩

/-- C7: New fails with ErrStartTimeAhead if and only if the supplied
StartTime is strictly after the current wall-clock time; a zero
(unsupplied) StartTime never triggers this error for any wall-clock
reading at or after the Unix epoch. -/
theorem New_startTimeAhead_iff (st : Settings) (now : Int)
    (interfaceAddrs : Except Nat (List NetAddr)) :
    (New st now interfaceAddrs = Except.error GoError.startTimeAhead ↔
      now < settingsStartNano st) ∧
    (st.startTime = none → 0 ≤ now →
      New st now interfaceAddrs ≠ Except.error GoError.startTimeAhead) := by
  have hiff : New st now interfaceAddrs = Except.error GoError.startTimeAhead ↔
      now < settingsStartNano st := by
    constructor
    · intro h
      by_contra hc
      unfold New at h
      rw [if_neg (by omega)] at h
      rcases hr : resolveMachineID st interfaceAddrs with e | mid <;>
        rw [hr] at h <;> dsimp only at h
      · rcases resolveMachineID_err st interfaceAddrs e hr with he | ⟨c, he⟩ <;>
          rw [he] at h <;> exact absurd (Except.error.inj h) (by simp)
      · rcases hcmid : st.checkMachineID with _ | check <;>
          rw [hcmid] at h <;> dsimp only at h
        · exact absurd h (by simp)
        · by_cases hcm : check mid = true
          · rw [if_pos hcm] at h
            exact absurd h (by simp)
          · rw [if_neg hcm] at h
            exact absurd (Except.error.inj h) (by simp)
    · intro h
      unfold New
      rw [if_pos (by omega)]
  refine ⟨hiff, fun hz hn h => ?_⟩
  have := hiff.mp h
  rw [settingsStartNano, hz] at this
  dsimp only at this
  have hzn : zeroTimeNano < 0 := by decide
  omega

/-- C7 witness: a future StartTime is rejected, a zero StartTime is not. -/
theorem New_startTimeAhead_iff_witness :
    New ⟨some 1, some (5, none), none⟩ 0 (Except.ok []) =
      Except.error GoError.startTimeAhead ∧
    New ⟨none, some (5, none), none⟩ 0 (Except.ok []) ≠
      Except.error GoError.startTimeAhead :=
  ⟨(New_startTimeAhead_iff ⟨some 1, some (5, none), none⟩ 0 (Except.ok [])).1.mpr
      (by decide),
   (New_startTimeAhead_iff ⟨none, some (5, none), none⟩ 0 (Except.ok [])).2 rfl le_rfl⟩

/-- A successful call in a run of a generator built by New returns the
plain positional encoding of the post-call state. -/
theorem callResult_ok_encoding (st : Settings) (now0 : Int)
    (interfaceAddrs : Except Nat (List NetAddr)) (sf0 : Snowflake)
    (hnew : New st now0 interfaceAddrs = Except.ok sf0) (hst : SettingsWF st)
    (nows : List Int) (i : Nat) (hi : i < nows.length)
    (hs : (callResult sf0 nows i).2 = none) :
    (callResult sf0 nows i).1 =
      (runState sf0 (nows.take (i + 1))).elapsedTime.toNat * 2 ^ 24 +
      (runState sf0 (nows.take (i + 1))).sequence * 2 ^ 16 +
      (runState sf0 (nows.take (i + 1))).machineID ∧
    WF (runState sf0 (nows.take (i + 1))) ∧
    (runState sf0 (nows.take (i + 1))).elapsedTime < 2 ^ 39 := by
  have hwf : WF (runState sf0 (nows.take (i + 1))) :=
    WF_runState sf0 _ (WF_New st now0 interfaceAddrs sf0 hnew hst)
  rw [callResult_eq_toID sf0 nows i hi] at hs ⊢
  have h39 : (runState sf0 (nows.take (i + 1))).elapsedTime < 2 ^ 39 :=
    toID_ok_elapsed _ hs
  obtain ⟨h0, hseq, hmach⟩ := hwf
  rw [toID_ok _ h0 h39 hseq hmach]
  exact ⟨rfl, ⟨h0, hseq, hmach⟩, h39⟩

/-- C6: every ID returned by a successful NextID call of a generator
built by New is strictly below 2^63, i.e. its guard bit (bit 63) is 0. -/
theorem nextID_guard_bit (st : Settings) (now0 : Int)
    (interfaceAddrs : Except Nat (List NetAddr)) (sf0 : Snowflake)
    (hnew : New st now0 interfaceAddrs = Except.ok sf0) (hst : SettingsWF st)
    (nows : List Int) (i : Nat) (hi : i < nows.length)
    (hs : (callResult sf0 nows i).2 = none) :
    (callResult sf0 nows i).1 < 2 ^ 63 ∧ (Decompose (callResult sf0 nows i).1).msb = 0 := by
  obtain ⟨hid, ⟨h0, hseq, hmach⟩, h39⟩ :=
    callResult_ok_encoding st now0 interfaceAddrs sf0 hnew hst nows i hi hs
  have hlt : (callResult sf0 nows i).1 < 2 ^ 63 := by
    rw [hid]
    omega
  refine ⟨hlt, ?_⟩
  show (callResult sf0 nows i).1 >>> 63 = 0
  rw [Nat.shiftRight_eq_div_pow]
  omega

/-- C6 witness: the first call of a freshly built generator. -/
theorem nextID_guard_bit_witness :
    (callResult ⟨140952960000, 0, 255, 5⟩ [1409529610000000] 0).1 < 2 ^ 63 ∧
    (Decompose (callResult ⟨140952960000, 0, 255, 5⟩ [1409529610000000] 0).1).msb = 0 :=
  nextID_guard_bit ⟨none, some (5, none), none⟩ 0 (Except.ok [])
    ⟨140952960000, 0, 255, 5⟩ rfl
    (by intro v e h; injection h with h1; injection h1 with h2 h3; omega)
    [1409529610000000] 0 (by decide) rfl

/-- C2: the (tick, sequence) pairs decoded from two adjacent successful
calls of a generator built by New increase strictly in lexicographic
order, and in exactly one of the two ways the claim names: the tick
increases and the sequence resets to 0, or the tick is unchanged and the
sequence grows by exactly 1.  (Successful calls are always adjacent:
failures are terminal.) -/
theorem nextID_lex_increase (st : Settings) (now0 : Int)
    (interfaceAddrs : Except Nat (List NetAddr)) (sf0 : Snowflake)
    (hnew : New st now0 interfaceAddrs = Except.ok sf0) (hst : SettingsWF st)
    (nows : List Int) (i : Nat) (hi : i + 1 < nows.length)
    (h1 : (callResult sf0 nows i).2 = none) (h2 : (callResult sf0 nows (i + 1)).2 = none) :
    (elapsedTime (callResult sf0 nows (i + 1)).1 > elapsedTime (callResult sf0 nows i).1 ∧
      SequenceNumber (callResult sf0 nows (i + 1)).1 = 0) ∨
    (elapsedTime (callResult sf0 nows (i + 1)).1 = elapsedTime (callResult sf0 nows i).1 ∧
      SequenceNumber (callResult sf0 nows (i + 1)).1 =
        SequenceNumber (callResult sf0 nows i).1 + 1) := by
  obtain ⟨hidA, ⟨h0A, hseqA, hmachA⟩, h39A⟩ :=
    callResult_ok_encoding st now0 interfaceAddrs sf0 hnew hst nows i (by omega) h1
  obtain ⟨hidB, ⟨h0B, hseqB, hmachB⟩, h39B⟩ :=
    callResult_ok_encoding st now0 interfaceAddrs sf0 hnew hst nows (i + 1) hi h2
  obtain ⟨heA, hsA, hmA⟩ :=
    decode_fields (runState sf0 (nows.take (i + 1))).elapsedTime.toNat
      (runState sf0 (nows.take (i + 1))).sequence
      (runState sf0 (nows.take (i + 1))).machineID hseqA hmachA
  obtain ⟨heB, hsB, hmB⟩ :=
    decode_fields (runState sf0 (nows.take (i + 2))).elapsedTime.toNat
      (runState sf0 (nows.take (i + 2))).sequence
      (runState sf0 (nows.take (i + 2))).machineID hseqB hmachB
  rw [hidA, hidB, heA, heB, hsA, hsB]
  have hstep : runState sf0 (nows.take (i + 2)) =
      step (runState sf0 (nows.take (i + 1))) (nows.getD (i + 1) 0) :=
    runState_take_succ sf0 nows (i + 1) hi
  rcases step_cases (runState sf0 (nows.take (i + 1))) (nows.getD (i + 1) 0) with
    ⟨hlt, he⟩ | ⟨hle, hz, he⟩ | ⟨hle, hz, he⟩ <;> rw [he] at hstep <;> rw [hstep] <;> dsimp only
  · left
    constructor
    · omega
    · rfl
  · left
    constructor
    · omega
    · rfl
  · right
    constructor
    · rfl
    · omega

/-- C2 witness: the dichotomy at the first two calls of a concrete run. -/
theorem nextID_lex_increase_witness :
    (elapsedTime (callResult ⟨140952960000, 0, 255, 5⟩ [1409529610000000, 1409529610000000] 1).1 >
        elapsedTime (callResult ⟨140952960000, 0, 255, 5⟩ [1409529610000000, 1409529610000000] 0).1 ∧
      SequenceNumber (callResult ⟨140952960000, 0, 255, 5⟩ [1409529610000000, 1409529610000000] 1).1 = 0) ∨
    (elapsedTime (callResult ⟨140952960000, 0, 255, 5⟩ [1409529610000000, 1409529610000000] 1).1 =
        elapsedTime (callResult ⟨140952960000, 0, 255, 5⟩ [1409529610000000, 1409529610000000] 0).1 ∧
      SequenceNumber (callResult ⟨140952960000, 0, 255, 5⟩ [1409529610000000, 1409529610000000] 1).1 =
        SequenceNumber (callResult ⟨140952960000, 0, 255, 5⟩ [1409529610000000, 1409529610000000] 0).1 + 1) :=
  nextID_lex_increase ⟨none, some (5, none), none⟩ 0 (Except.ok [])
    ⟨140952960000, 0, 255, 5⟩ rfl
    (by intro v e h; injection h with h1; injection h1 with h2 h3; omega)
    [1409529610000000, 1409529610000000] 0 (by decide) rfl rfl

/-- C1: any two distinct successful NextID calls on a single generator
built by New, under an arbitrary sequence of clock readings, return
different uint64 values. -/
theorem nextID_unique (st : Settings) (now0 : Int)
    (interfaceAddrs : Except Nat (List NetAddr)) (sf0 : Snowflake)
    (hnew : New st now0 interfaceAddrs = Except.ok sf0) (hst : SettingsWF st)
    (nows : List Int) (i j : Nat) (hij : i ≠ j) (hi : i < nows.length) (hj : j < nows.length)
    (hsi : (callResult sf0 nows i).2 = none) (hsj : (callResult sf0 nows j).2 = none) :
    (callResult sf0 nows i).1 ≠ (callResult sf0 nows j).1 := by
  suffices aux : ∀ a b : Nat, a < b → b < nows.length →
      (callResult sf0 nows a).2 = none → (callResult sf0 nows b).2 = none →
      (callResult sf0 nows a).1 ≠ (callResult sf0 nows b).1 by
    rcases Nat.lt_or_lt_of_ne hij with h | h
    · exact aux i j h hj hsi hsj
    · exact (aux j i h hi hsj hsi).symm
  intro a b hab hb hsa hsb heq
  obtain ⟨hidA, ⟨h0A, hseqA, hmachA⟩, h39A⟩ :=
    callResult_ok_encoding st now0 interfaceAddrs sf0 hnew hst nows a
      (lt_of_lt_of_le hab (le_of_lt hb)) hsa
  obtain ⟨hidB, ⟨h0B, hseqB, hmachB⟩, h39B⟩ :=
    callResult_ok_encoding st now0 interfaceAddrs sf0 hnew hst nows b hb hsb
  rw [hidA, hidB] at heq
  have hfields : (runState sf0 (nows.take (a + 1))).elapsedTime.toNat =
      (runState sf0 (nows.take (b + 1))).elapsedTime.toNat ∧
      (runState sf0 (nows.take (a + 1))).sequence =
      (runState sf0 (nows.take (b + 1))).sequence := by
    constructor <;> omega
  have hkey_eq : key (runState sf0 (nows.take (a + 1))) =
      key (runState sf0 (nows.take (b + 1))) := by
    rw [key, key]
    omega
  have hsplit : runState sf0 (nows.take (b + 1)) =
      runState (runState sf0 (nows.take (a + 1))) ((nows.take (b + 1)).drop (a + 1)) :=
    runState_take_le sf0 nows (by omega)
  have hlen : 0 < ((nows.take (b + 1)).drop (a + 1)).length := by
    rw [List.length_drop, List.length_take]
    omega
  have hkey_lt : key (runState sf0 (nows.take (a + 1))) <
      key (runState sf0 (nows.take (b + 1))) := by
    rw [hsplit]
    exact key_runState _ _ ⟨h0A, hseqA, hmachA⟩ (List.length_pos.mp hlen)
  omega

/-- C1 witness: the first two calls of a concrete run both succeed and
return different values. -/
theorem nextID_unique_witness :
    (callResult ⟨140952960000, 0, 255, 5⟩ [1409529610000000, 1409529610000000] 0).1 ≠
    (callResult ⟨140952960000, 0, 255, 5⟩ [1409529610000000, 1409529610000000] 1).1 :=
  nextID_unique ⟨none, some (5, none), none⟩ 0 (Except.ok [])
    ⟨140952960000, 0, 255, 5⟩ rfl
    (by intro v e h; injection h with h1; injection h1 with h2 h3; omega)
    [1409529610000000, 1409529610000000] 0 1 (by decide) (by decide) (by decide) rfl rfl

/-- The selection predicate of the default machine-ID derivation, as the
spec words it: a *net.IPNet address that is not loopback and whose IPv4
form lies in the RFC1918 private or RFC3927 link-local ranges. -/
def qualifiesPrivate (a : NetAddr) : Bool :=
  match a with
  | NetAddr.ipnet ip => !isLoopback ip && isPrivateIPv4 (ipTo4 ip)
  | NetAddr.other => false

theorem ipTo4_subset (ip l : List Nat) (h : ipTo4 ip = some l) : ∀ b ∈ l, b ∈ ip := by
  unfold ipTo4 at h
  split at h
  · cases h
    exact fun b hb => hb
  · split at h
    · cases h
      exact fun b hb => List.drop_subset 12 ip hb
    · exact absurd h (by simp)

theorem getD_lt_of_bytes (l : List Nat) (hb : ∀ b ∈ l, b < 256) (i : Nat) :
    l.getD i 0 < 256 := by
  rw [List.getD_eq_getElem?_getD]
  by_cases hi : i < l.length
  · rw [List.getElem?_eq_getElem hi]
    exact hb _ (List.getElem_mem hi)
  · rw [List.getElem?_eq_none (by omega)]
    decide

/-- The loop of privateIPv4 selects exactly the first qualifying address. -/
theorem privateIPv4Loop_find (as : List NetAddr) :
    privateIPv4Loop as =
      match as.find? qualifiesPrivate with
      | some (NetAddr.ipnet ip) => Except.ok ((ipTo4 ip).getD [])
      | _ => Except.error GoError.noPrivateAddress := by
  induction as with
  | nil => rfl
  | cons a rest ih =>
    cases a with
    | other =>
      rw [List.find?_cons_of_neg rest (by simp [qualifiesPrivate])]
      exact ih
    | ipnet ip =>
      show (if isLoopback ip then privateIPv4Loop rest
        else if isPrivateIPv4 (ipTo4 ip) then Except.ok ((ipTo4 ip).getD [])
        else privateIPv4Loop rest) = _
      by_cases hl : isLoopback ip
      · rw [if_pos hl,
          List.find?_cons_of_neg rest (by simp [qualifiesPrivate, hl])]
        exact ih
      · rw [if_neg hl]
        by_cases hp : isPrivateIPv4 (ipTo4 ip) = true
        · rw [if_pos hp,
            List.find?_cons_of_pos rest (by simp [qualifiesPrivate, hl, hp])]
        · rw [if_neg hp,
            List.find?_cons_of_neg rest (by simp [qualifiesPrivate, hl, hp])]
          exact ih

/-- C8: with no MachineID function supplied (and the start-time check
passing), construction derives the identifier from the first enumerated
non-loopback address in the private or link-local IPv4 ranges, storing
its third and fourth octets big-endian; it fails with
ErrNoPrivateAddress when no address qualifies; and enumerator errors as
well as errors of a supplied MachineID function are propagated
verbatim. -/
theorem New_machineID_resolution :
    (∀ (st : Settings) (now : Int) (ec : Nat),
      st.machineID = none → settingsStartNano st ≤ now →
      New st now (Except.error ec) = Except.error (GoError.custom ec)) ∧
    (∀ (st : Settings) (now : Int) (as : List NetAddr),
      st.machineID = none → settingsStartNano st ≤ now →
      (as.find? qualifiesPrivate = none →
        New st now (Except.ok as) = Except.error GoError.noPrivateAddress) ∧
      (∀ ip, as.find? qualifiesPrivate = some (NetAddr.ipnet ip) →
        st.checkMachineID = none → (∀ b ∈ ip, b < 256) →
        New st now (Except.ok as) =
          Except.ok ⟨resolvedStartTime st, 0, 255,
            ((ipTo4 ip).getD []).getD 2 0 * 256 + ((ipTo4 ip).getD []).getD 3 0⟩)) ∧
    (∀ (st : Settings) (now : Int) (interfaceAddrs : Except Nat (List NetAddr)) (v e : Nat),
      st.machineID = some (v, some e) → settingsStartNano st ≤ now →
      New st now interfaceAddrs = Except.error (GoError.custom e)) := by
  refine ⟨?_, ?_, ?_⟩
  · intro st now ec hmid hnow
    unfold New
    rw [if_neg (by omega)]
    have hr : resolveMachineID st (Except.error ec) = Except.error (GoError.custom ec) := by
      unfold resolveMachineID
      rw [hmid]
      rfl
    rw [hr]
  · intro st now as hmid hnow
    have hr : resolveMachineID st (Except.ok as) = lower16BitPrivateIP (Except.ok as) := by
      unfold resolveMachineID
      rw [hmid]
    constructor
    · intro hfind
      have hlow : lower16BitPrivateIP (Except.ok as) = Except.error GoError.noPrivateAddress := by
        unfold lower16BitPrivateIP privateIPv4
        dsimp only
        rw [privateIPv4Loop_find, hfind]
      unfold New
      rw [if_neg (by omega), hr, hlow]
    · intro ip hfind hcm hbytes
      have hq : qualifiesPrivate (NetAddr.ipnet ip) = true :=
        List.find?_some hfind
      have hp : isPrivateIPv4 (ipTo4 ip) = true := by
        simp only [qualifiesPrivate, Bool.and_eq_true] at hq
        exact hq.2
      obtain ⟨l, hl⟩ : ∃ l, ipTo4 ip = some l := by
        rcases h4 : ipTo4 ip with _ | l
        · rw [h4] at hp
          exact absurd hp (by simp [isPrivateIPv4])
        · exact ⟨l, rfl⟩
      have hlb : ∀ b ∈ l, b < 256 := fun b hb => hbytes b (ipTo4_subset ip l hl b hb)
      have h2 : l.getD 2 0 < 256 := getD_lt_of_bytes l hlb 2
      have h3 : l.getD 3 0 < 256 := getD_lt_of_bytes l hlb 3
      have harith : ((l.getD 2 0 % 65536) <<< 8 % 65536 + l.getD 3 0 % 65536) % 65536 =
          l.getD 2 0 * 256 + l.getD 3 0 := by
        rw [Nat.shiftLeft_eq]
        omega
      have hlow : lower16BitPrivateIP (Except.ok as) =
          Except.ok (((ipTo4 ip).getD []).getD 2 0 * 256 + ((ipTo4 ip).getD []).getD 3 0) := by
        unfold lower16BitPrivateIP privateIPv4
        dsimp only
        rw [privateIPv4Loop_find, hfind]
        dsimp only
        rw [hl]
        dsimp only [Option.getD]
        rw [harith]
      unfold New
      rw [if_neg (by omega), hr, hlow, hcm]
      rfl
  · intro st now interfaceAddrs v e hmid hnow
    unfold New
    rw [if_neg (by omega)]
    have hr : resolveMachineID st interfaceAddrs = Except.error (GoError.custom e) := by
      unfold resolveMachineID
      rw [hmid]
    rw [hr]

/-- C8 witness: concrete derivations covering the three branches. -/
theorem New_machineID_resolution_witness :
    New ⟨none, none, none⟩ 0 (Except.error 42) = Except.error (GoError.custom 42) ∧
    New ⟨none, none, none⟩ 0 (Except.ok [NetAddr.other, NetAddr.ipnet [127, 0, 0, 1]]) =
      Except.error GoError.noPrivateAddress ∧
    New ⟨none, none, none⟩ 0
        (Except.ok [NetAddr.other, NetAddr.ipnet [127, 0, 0, 1], NetAddr.ipnet [192, 168, 3, 9]]) =
      Except.ok ⟨140952960000, 0, 255, 777⟩ ∧
    New ⟨none, some (5, some 7), none⟩ 0 (Except.ok []) = Except.error (GoError.custom 7) :=
  ⟨New_machineID_resolution.1 ⟨none, none, none⟩ 0 42 rfl (by decide),
   (New_machineID_resolution.2.1 ⟨none, none, none⟩ 0
      [NetAddr.other, NetAddr.ipnet [127, 0, 0, 1]] rfl (by decide)).1 rfl,
   (New_machineID_resolution.2.1 ⟨none, none, none⟩ 0
      [NetAddr.other, NetAddr.ipnet [127, 0, 0, 1], NetAddr.ipnet [192, 168, 3, 9]]
      rfl (by decide)).2 [192, 168, 3, 9] rfl rfl (by decide),
   New_machineID_resolution.2.2 ⟨none, some (5, some 7), none⟩ 0 (Except.ok []) 5 7
      rfl (by decide)⟩

end SnowflakeSpec
